import Mathlib

/-!
# Verification of the offline edge-lambda lifecycle engine

A shallow embedding of the repository's core: the CloudFront-style
lifecycle orchestrator (`CloudFrontLifecycle` from
`src/services/cache.service.ts`), the cache store (`CacheService`), the
behavior router (`BehaviorRouter.match`), and the origin resolver
(`Origin` from `src/services/origin.service` / the middleware bundle).

JavaScript numbers that hold TTLs and timestamps are modelled as `Int`
(millisecond timestamps); JS `undefined`/`null` values are modelled with
`Option`; thrown errors with `Except`.  Effects (cache mutation, the
shared mutable event, the sequence of hook/cache/origin invocations) are
threaded through an explicit `LState` record; the invocation sequence is
recorded in a trace so that "X was never invoked" is expressible.
-/

/-- One `{key, value}` element of a CloudFront header value list. -/
structure HeaderVal where
  key : Option String
  value : String
  deriving Repr, DecidableEq

/-- A CloudFront header map value: the code tolerates both a raw string
and the canonical array-of-`{key, value}` shape (see the
`typeof cacheControl` branches of `CacheService.saveToCache`). -/
inductive HVal where
  | hstr (s : String)
  | harr (l : List HeaderVal)
  deriving Repr, DecidableEq

/-- A CloudFront headers object: an assignment-ordered map from
(lower-cased, by convention) header name to value. -/
def Headers := List (String × HVal)
  deriving Repr, DecidableEq

/-- JS object property read `headers[name]`. -/
def lookupHeader (hs : Headers) (name : String) : Option HVal :=
  List.lookup name hs

/-- JS object property write `headers[name] = v` (overwrites). -/
def setHeader (hs : Headers) (name : String) (v : HVal) : Headers :=
  (name, v) :: List.filter (fun p => p.1 ≠ name) hs

/-- Does a single header value hold an element `{key: k, value: val}`? -/
def hvalHasKV (v : HVal) (k val : String) : Bool :=
  match v with
  | .hstr _ => false
  | .harr l => l.any (fun hv => hv.key = some k && hv.value = val)

/-- The CloudFront request of an event (`event.Records[0].cf.request`).
The `origin` field is attached by `Origin.init` before dispatch. -/
structure CFRequest where
  method : String
  uri : String
  querystring : String
  headers : Headers
  origin : Option String
  deriving Repr, DecidableEq

/-- A CloudFront result response (`CloudFrontResultResponse`). -/
structure CFResponse where
  status : String
  statusDescription : Option String
  headers : Option Headers
  bodyEncoding : Option String
  body : Option String
  deriving Repr, DecidableEq

/-- Does the response carry a header element `{key: k, value: val}`
under any header-map entry? -/
def responseCarries (r : CFResponse) (k val : String) : Bool :=
  match r.headers with
  | none => false
  | some hs => hs.any (fun p => hvalHasKV p.2 k val)

/-- `event.Records[0].cf.config`: only the stage tag is relevant here. -/
structure CFConfig where
  eventType : String
  deriving Repr, DecidableEq

/-- The event envelope `{config, request, response?}`. -/
structure CFEvent where
  config : CFConfig
  request : CFRequest
  response : Option CFResponse
  deriving Repr, DecidableEq

/-- Thrown JS errors, as far as the lifecycle distinguishes them:
the internal `NoResult` control signal, `HttpError`s carrying a status
code (`MethodNotAllowedError` is `httpError 405 _`, `NotFoundError` is
`httpError 404 _`), and anything else. -/
inductive JsError where
  | noResult
  | httpError (status : Int) (message : String)
  | other (message : String)
  deriving Repr, DecidableEq

/-- `new MethodNotAllowedError(msg)`: an `HttpError` with status
`StatusCodes.METHOD_NOT_ALLOWED` (405), from `src/errors/http`. -/
def MethodNotAllowedError (msg : String) : JsError :=
  .httpError 405 msg

deriving instance DecidableEq for Except

/- ## Cache store (`CacheService`) -/

/-- One flat-cache entry: `{expire: ISO-8601 timestamp, body}`.  The
timestamp is modelled as the epoch-millisecond value that
`Date.parse(entry.expire)` yields. -/
structure CacheEntry where
  expire : Int
  body : Option String
  deriving Repr, DecidableEq

/-- The flat-cache key-value store, keyed by request URI. -/
def Cache := List (String × CacheEntry)
  deriving Repr, DecidableEq

/-- `cache.getKey(uri)`. -/
def getCacheKey (c : Cache) (uri : String) : Option CacheEntry :=
  List.lookup uri c

/-- `cache.removeKey(uri)`. -/
def removeCacheKey (c : Cache) (uri : String) : Cache :=
  List.filter (fun p => p.1 ≠ uri) c

/-- `cache.setKey(uri, entry)` (overwrites any prior entry). -/
def setCacheKey (c : Cache) (uri : String) (e : CacheEntry) : Cache :=
  (uri, e) :: removeCacheKey c uri

/-- `CacheService.retrieveFromCache(event)` at current time `now`
(epoch ms).  Returns the JS return value (`undefined` modelled as the
outer `none`; a hit returns the stored `body`, itself possibly
`undefined`) together with the store after the lazy expiry deletion. -/
def retrieveFromCache (c : Cache) (now : Int) (event : CFEvent) :
    Option (Option String) × Cache :=
  let uri := event.request.uri
  match getCacheKey c uri with
  | some result =>
    if decide (result.expire > now) then (some result.body, c)
    else (none, removeCacheKey c uri)
  | none => (none, c)

/-- The TTL-bounds half of the behavior record (`Behavior` in
`src/function-set.ts`). -/
structure Behavior where
  minTTL : Int
  maxTTL : Int
  defaultTTL : Int
  allowedMethods : List String
  cachedMethods : List String
  deriving Repr, DecidableEq

/-- The defaults installed by the `FunctionSet` constructor. -/
def defaultBehavior : Behavior :=
  { minTTL := 0
    maxTTL := 31536000
    defaultTTL := 86400
    allowedMethods := ["GET", "HEAD"]
    cachedMethods := ["GET", "HEAD"] }

/-- Split a character list on a separator character (the semantics of
`String.splitOn` with a one-character separator, kept on `List Char` so
that it evaluates inside the kernel). -/
def splitOnCharAux (sep : Char) : List Char → List Char → List (List Char)
  | [], acc => [acc.reverse]
  | c :: rest, acc =>
    if c = sep then acc.reverse :: splitOnCharAux sep rest []
    else splitOnCharAux sep rest (c :: acc)

def splitOnChar (sep : Char) (l : List Char) : List (List Char) :=
  splitOnCharAux sep l []

/-- Whitespace trim on both ends (the semantics of `String.trim`). -/
def trimChars (l : List Char) : List Char :=
  ((l.dropWhile Char.isWhitespace).reverse.dropWhile Char.isWhitespace).reverse

/-- JS `parseInt(s, 10)`: skip leading whitespace, optional sign, then a
(nonempty) digit prefix; `none` models `NaN`. -/
def digitsPrefixVal (l : List Char) : Option Nat :=
  let ds := l.takeWhile Char.isDigit
  if ds.isEmpty then none
  else some (ds.foldl (fun a c => a * 10 + (c.toNat - 48)) 0)

def parseIntJS (s : String) : Option Int :=
  match s.data.dropWhile Char.isWhitespace with
  | '-' :: rest => (digitsPrefixVal rest).map (fun n => -(n : Int))
  | '+' :: rest => (digitsPrefixVal rest).map (fun n => (n : Int))
  | l => (digitsPrefixVal l).map (fun n => (n : Int))

/-- One `name=value` (or bare boolean `name`) directive of a
`cache-control` field; the `parse-cache-control` package lower-cases the
value and stores `true` (modelled as `""`) for bare directives. -/
def parseDirective (s : List Char) : Option (String × String) :=
  match splitOnChar '=' (trimChars s) with
  | [] => none
  | [n] => some (⟨n⟩, "")
  | n :: v :: _ => some (⟨n⟩, ⟨(trimChars v).map Char.toLower⟩)

/-- The `max-age` directive of a `cache-control` field as the
`parse-cache-control` package exposes it to `saveToCache`: the last
occurrence wins, a bare or non-numeric `max-age` makes the whole parse
come back `null` (modelled `none`). -/
def parseCacheControlMaxAge (s : String) : Option Int :=
  let dirs := (splitOnChar ',' s.data).filterMap parseDirective
  match List.lookup "max-age" dirs.reverse with
  | none => none
  | some v => if v = "" then none else parseIntJS v

/-- Lines 39–53 of `CacheService.saveToCache`: the TTL before clamping.
Starts from `behavior.defaultTTL`; a `cache-control` header (string, or
first element of an array value) with a *truthy* parsed `max-age`
replaces it (`ttl = parsed?.['max-age'] || ttl`, so `max-age=0` keeps
the default). -/
def computeTTL (headers : Option Headers) (b : Behavior) : Int :=
  let ttl := b.defaultTTL
  match headers with
  | none => ttl
  | some hs =>
    let cacheControl := lookupHeader hs "cache-control"
    let cacheControlStr : Option String :=
      match cacheControl with
      | some (.hstr s) => some s
      | some (.harr l) =>
        some (Option.getD (Option.map HeaderVal.value l.head?) "")
      | none => none
    match cacheControlStr with
    | none => ttl
    | some s =>
      if s = "" then ttl
      else
        match parseCacheControlMaxAge s with
        | none => ttl
        | some v => if v = 0 then ttl else v

/-- Lines 55–59 of `CacheService.saveToCache`:
`if (ttl > maxTTL) ttl = maxTTL; else if (ttl < minTTL) ttl = minTTL;`. -/
def clampTTL (b : Behavior) (ttl : Int) : Int :=
  if ttl > b.maxTTL then b.maxTTL
  else if ttl < b.minTTL then b.minTTL
  else ttl

/-- `CacheService.saveToCache(event, behavior)` at current time `now`.
Destructuring `const { body, headers } = response` throws a `TypeError`
when the combined event carries no response.  The stored expiry is
`now + ttl` seconds (`expire.setSeconds(expire.getSeconds() + ttl)`). -/
def saveToCache (c : Cache) (now : Int) (event : CFEvent) (b : Behavior) :
    Except JsError Cache :=
  match event.response with
  | none => .error (.other "TypeError: cannot destructure undefined")
  | some resp =>
    let uri := event.request.uri
    let ttl := clampTTL b (computeTTL resp.headers b)
    let expire := now + ttl * 1000
    .ok (setCacheKey c uri { expire := expire, body := resp.body })

/- ## Lifecycle orchestrator (`CloudFrontLifecycle`) -/

/-- The value a request-stage hook resolves with
(`CloudFrontRequestResult`): a request shape, a response shape, or
`null`/`undefined`. -/
inductive ReqResult where
  | request (r : CFRequest)
  | response (r : CFResponse)
  | nullish
  deriving Repr, DecidableEq

/-- Modelled from the spec: `isResponseResult` (from the absent
`src/utils` module) classifies a request-stage hook result as a
"response result" when it structurally matches the response shape
(carries a status code) rather than the request shape. -/
def isResponseResult (r : ReqResult) : Bool :=
  match r with
  | .response _ => true
  | _ => false

/-- The response a response-shaped hook result denotes. -/
def asResponse (r : ReqResult) : Option CFResponse :=
  match r with
  | .response resp => some resp
  | _ => none

/-- Modelled from the spec: `combineResult` (from the absent
`src/utils` module) combines the lifecycle's event with a stage result
into a response event — the same envelope with the result installed as
its `response`. -/
def combineResult (e : CFEvent) (r : Option CFResponse) : CFEvent :=
  { e with response := r }

/-- Modelled from the spec: `toResultResponse` (from the absent
`src/utils` module) wraps a cached body back into a result-response
shape (status 200, no headers yet — the caller tags them). -/
def toResultResponse (body : Option String) : CFResponse :=
  { status := "200"
    statusDescription := none
    headers := none
    bodyEncoding := none
    body := body }

/-- A request-stage hook, normalized to the asynchronous contract:
it resolves with a `ReqResult` or rejects with an error. -/
def ReqHook := CFEvent → Except JsError ReqResult

/-- A response-stage hook (`CloudFrontResponseResult` is nullable). -/
def RespHook := CFEvent → Except JsError (Option CFResponse)

/-- `identityRequestHandler` from `src/function-set.ts`. -/
def identityRequestHandler : ReqHook :=
  fun event => .ok (.request event.request)

/-- `identityResponseHandler` from `src/function-set.ts`. -/
def identityResponseHandler : RespHook :=
  fun event => .ok event.response

/-- The hook slots and cache policy of one routing bucket
(`FunctionSet`), as the lifecycle consumes them. -/
structure FnSet where
  viewerRequest : ReqHook
  originRequest : ReqHook
  originResponse : RespHook
  viewerResponse : RespHook
  behavior : Behavior

/-- The operator options the lifecycle reads (`ServerlessOptions`). -/
structure SOptions where
  disableCache : Bool

/-- Entries of the invocation trace: which collaborator was invoked. -/
inductive TraceEv where
  | viewerRequestHook
  | viewerResponseHook
  | originRequestHook
  | originResponseHook
  | originFetch
  | cacheLookup
  | cacheSave
  deriving Repr, DecidableEq

/-- The immutable inputs of one `CloudFrontLifecycle`: the hook set,
options, the origin's fetch behaviour (`fnSet.origin.retrieve`, which
never rejects — the resolver converts failures into responses), the
origin descriptor `Origin.init` attaches, and the clock. -/
structure LCtx where
  fnSet : FnSet
  options : SOptions
  originRetrieve : CFEvent → CFResponse
  originDescr : String
  now : Int

/-- The mutable state a lifecycle threads: the shared event (whose
`config.eventType` the stages mutate), the cache store, and the
invocation trace. -/
structure LState where
  event : CFEvent
  cache : Cache
  trace : List TraceEv

/-- The outcome of a lifecycle stage or of `run`: the resolved
`CloudFrontResponseResult` or the rejection, with the state after. -/
def LOut := Except JsError (Option CFResponse) × LState

/-- `this.event.Records[0].cf.config.eventType = t`. -/
def setEventType (st : LState) (t : String) : LState :=
  { st with event := { st.event with config := { eventType := t } } }

/-- Append one invocation to the trace. -/
def logT (st : LState) (e : TraceEv) : LState :=
  { st with trace := st.trace ++ [e] }

/-- `CloudFrontLifecycle.canCache()`. -/
def canCache (c : LCtx) (st : LState) : Bool :=
  if c.options.disableCache then false
  else c.fnSet.behavior.cachedMethods.contains st.event.request.method

/-- `CloudFrontLifecycle.onViewerResponse(result)`. -/
def onViewerResponse (c : LCtx) (result : Option CFResponse) (st : LState) : LOut :=
  let st := setEventType st "viewer-response"
  let event := combineResult st.event result
  (c.fnSet.viewerResponse event, logT st .viewerResponseHook)

/-- `CloudFrontLifecycle.onViewerRequest()`. -/
def onViewerRequest (c : LCtx) (st : LState) : LOut :=
  let st := setEventType st "viewer-request"
  match c.fnSet.viewerRequest st.event with
  | .error e => (.error e, logT st .viewerRequestHook)
  | .ok result =>
    let st := logT st .viewerRequestHook
    if isResponseResult result then onViewerResponse c (asResponse result) st
    else (.error .noResult, st)

/-- `CloudFrontLifecycle.onCache()`.  Note `if (!cached)`: an
`undefined` or empty-string cached body counts as a miss. -/
def onCache (c : LCtx) (st : LState) : LOut :=
  if ¬ canCache c st then (.error .noResult, st)
  else
    let looked := retrieveFromCache st.cache c.now st.event
    let st := logT { st with cache := looked.2 } .cacheLookup
    match looked.1 with
    | none => (.error .noResult, st)
    | some cached =>
      if cached = none ∨ cached = some "" then (.error .noResult, st)
      else
        let result := toResultResponse cached
        let tagged := { result with
          headers := some (setHeader (Option.getD result.headers [])
            "X-Cache" (.harr [{ key := some "X-Cache", value := "Hit" }])) }
        onViewerResponse c (some tagged) st

/-- `CloudFrontLifecycle.onOriginResponse(result)`. -/
def onOriginResponse (c : LCtx) (result : CFResponse) (st : LState) : LOut :=
  let st := setEventType st "origin-response"
  let event := combineResult st.event (some result)
  (c.fnSet.originResponse event, logT st .originResponseHook)

/-- `CloudFrontLifecycle.onOriginRequest()` (inlining `onOrigin`). -/
def onOriginRequest (c : LCtx) (st : LState) : LOut :=
  let st := setEventType st "origin-request"
  match c.fnSet.originRequest st.event with
  | .error e => (.error e, logT st .originRequestHook)
  | .ok result =>
    let st := logT st .originRequestHook
    if isResponseResult result then (.ok (asResponse result), st)
    else
      let resultFromOrigin := c.originRetrieve st.event
      let st := logT st .originFetch
      onOriginResponse c resultFromOrigin st

/-- Line 144 of `run`: inject `x-cache: [{key: X-Cache, value: Miss}]`
into the (possibly missing) header map of a truthy result. -/
def setXCacheMiss (r : CFResponse) : CFResponse :=
  { r with headers := some (setHeader (Option.getD r.headers [])
      "x-cache" (.harr [{ key := some "X-Cache", value := "Miss" }])) }

/-- Lines 138–140 of `run`: the conditional cache save of the
origin-stage result. -/
def saveStage (c : LCtx) (result : Option CFResponse) (st : LState) :
    Except JsError Unit × LState :=
  if canCache c st then
    let st := logT st .cacheSave
    match saveToCache st.cache c.now (combineResult st.event result)
        c.fnSet.behavior with
    | .error e => (.error e, st)
    | .ok cache' => (.ok (), { st with cache := cache' })
  else (.ok (), st)

/-- Lines 142–147 of `run`: the final viewer-response stage followed by
the cache-miss header injection on a truthy result. -/
def viewerRespondAndTag (c : LCtx) (result : Option CFResponse) (st : LState) : LOut :=
  match onViewerResponse c result st with
  | (.error e, st) => (.error e, st)
  | (.ok result2, st) =>
    match result2 with
    | some r => (.ok (some (setXCacheMiss r)), st)
    | none => (.ok none, st)

/-- The tail of `run` after both try/catch blocks fell through:
origin-request stage, conditional cache save, viewer-response stage,
and the cache-miss header injection. -/
def afterCache (c : LCtx) (st : LState) : LOut :=
  match onOriginRequest c st with
  | (.error e, st) => (.error e, st)
  | (.ok result, st) =>
    match saveStage c result st with
    | (.error e, st) => (.error e, st)
    | (.ok _, st) => viewerRespondAndTag c result st

/-- `this.fnSet.origin.init(this.event)`: attach the origin descriptor
to the shared event's request. -/
def initState (c : LCtx) (st : LState) : LState :=
  { st with event := { st.event with
      request := { st.event.request with origin := some c.originDescr } } }

/-- `CloudFrontLifecycle.run(url)`: method allow-listing, then the
viewer-request and cache stages with their `NoResult`-discarding
try/catch blocks, then the origin tail. -/
def run (c : LCtx) (st : LState) : LOut :=
  let st := initState c st
  let method := st.event.request.method
  if ¬ c.fnSet.behavior.allowedMethods.contains method then
    (.error (MethodNotAllowedError "Cloudfront method not allowed"), st)
  else
    match onViewerRequest c st with
    | (.ok r, st) => (.ok r, st)
    | (.error e, st) =>
      if e = .noResult then
        match onCache c st with
        | (.ok r, st) => (.ok r, st)
        | (.error e, st) =>
          if e = .noResult then afterCache c st
          else (.error e, st)
      else (.error e, st)

/- ## Router (`BehaviorRouter.match`) -/

/-- The matcher that `globToRegExp(pattern)` (default flags: not
extended, no globstar) compiles: every character is literal except `*`,
which becomes `.*` (any characters, slashes included); the regex is
anchored at both ends. -/
def matchGlob : List Char → List Char → Bool
  | [], s => s.isEmpty
  | c :: ps, s =>
    if c = '*' then (List.tails s).any (fun t => matchGlob ps t)
    else
      match s with
      | [] => false
      | d :: s' => c = d && matchGlob ps s'

/-- `fnSet.regex.test(path)`. -/
def globTest (pattern path : String) : Bool :=
  matchGlob pattern.data path.data

/-- `new URL(req.url, 'http://localhost').pathname` for the
path-relative request targets an HTTP server sees: the part before any
query string or fragment. -/
def urlPathname (u : String) : String :=
  ⟨(splitOnChar '?' ((splitOnChar '#' u.data).headD [])).headD []⟩

/-- `BehaviorRouter.match(req)` over the insertion-ordered behavior map
(`pattern ↦ hook set`, the hook set abstracted to `α`): a falsy
`req.url` matches nothing; otherwise the first behavior whose
glob-derived pattern accepts the URL's pathname wins, with the `'*'`
entry (`behaviors.get('*') || null`) as fallback. -/
def matchBehavior {α : Type} (behaviors : List (String × α))
    (url : Option String) : Option α :=
  match url with
  | none => none
  | some u =>
    if u = "" then none
    else
      let pathname := urlPathname u
      match behaviors.find? (fun p => globTest p.1 pathname) with
      | some p => some p.2
      | none => Option.map Prod.snd (behaviors.find? (fun p => p.1 = "*"))

/- ## Origin resolver (`Origin`) -/

/-- The origin kind `Origin`'s constructor derives from the configured
base location (`/^http:\/\//`, `/^https:\/\//`, empty → noop, anything
else → file). -/
inductive OriginType where
  | http
  | https
  | file
  | noop
  deriving Repr, DecidableEq

/-- Does `l` start with the characters `pre` (for the `/^http:\/\//`
and `/^https:\/\//` tests)? -/
def startsWithChars : List Char → List Char → Bool
  | _, [] => true
  | [], _ :: _ => false
  | c :: cs, p :: ps => c = p && startsWithChars cs ps

def classifyOrigin (baseUrl : String) : OriginType :=
  if baseUrl = "" then .noop
  else if startsWithChars baseUrl.data "http://".data then .http
  else if startsWithChars baseUrl.data "https://".data then .https
  else .file

/-- The slice of an `Origin` instance that `retrieve` consults.  For a
file origin, `baseUrl` is the `path.resolve`d base directory. -/
structure OriginModel where
  otype : OriginType
  baseUrl : String

/-- A filesystem node as `getFileResource` distinguishes them:
a regular file with contents, or anything else that exists. -/
inductive FsNode where
  | file (contents : String)
  | nonfile
  deriving Repr, DecidableEq

/-- The filesystem, abstracted as resolved path ↦ node. -/
def Fs := String → Option FsNode

/-- Trailing-`/` strip, for `path.join` modelling. -/
def dropTrailingSlashes (s : String) : String :=
  ⟨(s.data.reverse.dropWhile (fun c => c = '/')).reverse⟩

/-- Leading-`/` strip, for `path.join` modelling. -/
def dropLeadingSlashes (s : String) : String :=
  ⟨s.data.dropWhile (fun c => c = '/')⟩

/-- `path.join(a, b)` for the shapes that arise here (no `.`/`..`
segments): concatenate with exactly one separating slash. -/
def pathJoin (a b : String) : String :=
  if b = "" then a
  else if a = "" then b
  else dropTrailingSlashes a ++ "/" ++ dropLeadingSlashes b

/-- `Origin.getFileResource(key)` over the abstract filesystem:
`url.parse(key).pathname` joined onto the base directory; `fs.access`
failing (no node) is `NotFound` "… does not exist.", a node that is not
a regular file is `NotFound` "… is not a file.". -/
def getFileResource (fs : Fs) (baseUrl : String) (key : String) :
    Except JsError String :=
  let fileName := urlPathname key
  let fileTarget := pathJoin baseUrl fileName
  match fs fileTarget with
  | none => .error (.httpError 404 (fileTarget ++ " does not exist."))
  | some .nonfile => .error (.httpError 404 (fileTarget ++ " is not a file."))
  | some (.file contents) => .ok contents

/-- `Origin.getResource(request)`.  The network of an `http`/`https`
origin is abstracted as an oracle with the same contract as
`getHttpResource`. -/
def getResource (fs : Fs) (httpFetch : CFRequest → Except JsError String)
    (o : OriginModel) (request : CFRequest) : Except JsError String :=
  match o.otype with
  | .file => getFileResource fs o.baseUrl request.uri
  | .http | .https => httpFetch request
  | .noop => .error (.httpError 404 "Operation given as 'noop'")

/-- `err.isBoom ? err.output.statusCode : 500`: `HttpError`s carry
their status, anything else is 500. -/
def errStatusOf (e : JsError) : Int :=
  match e with
  | .httpError s _ => s
  | _ => 500

/-- `err.message`. -/
def errMessageOf (e : JsError) : String :=
  match e with
  | .httpError _ m => m
  | .other m => m
  | .noResult => ""

/-- `JSON.stringify` string escaping, for the message strings at hand
(backslash and double quote). -/
def jsonEscape (s : String) : String :=
  ⟨s.data.foldr (fun c acc =>
    if c = '\\' then '\\' :: '\\' :: acc
    else if c = '"' then '\\' :: '"' :: acc
    else c :: acc) []⟩

/-- `JSON.stringify({"code": status, "message": message})`. -/
def jsonCodeMessage (status : Int) (message : String) : String :=
  "\x7b\"code\":" ++ toString status ++ ",\"message\":\"" ++
    jsonEscape message ++ "\"\x7d"

/-- The fixed `content-type: application/json` header block `retrieve`
attaches to every response. -/
def jsonContentType : Headers :=
  [("content-type", .harr [{ key := some "content-type", value := "application/json" }])]

/-- `Origin.retrieve(event)`: a fetched resource becomes a 200 response;
any resolution failure becomes a non-thrown response carrying the
failure's status code (default 500) and a `{code, message}` JSON body. -/
def originRetrieveModel (fs : Fs)
    (httpFetch : CFRequest → Except JsError String) (o : OriginModel)
    (event : CFEvent) : CFResponse :=
  let request := event.request
  match getResource fs httpFetch o request with
  | .ok contents =>
    { status := "200"
      statusDescription := some ""
      headers := some jsonContentType
      bodyEncoding := some "text"
      body := some contents }
  | .error err =>
    let status := errStatusOf err
    { status := toString status
      statusDescription := some (errMessageOf err)
      headers := some jsonContentType
      bodyEncoding := some "text"
      body := some (jsonCodeMessage status (errMessageOf err)) }

/- ## Shared test fixtures -/

/-- A minimal request for witnesses. -/
def testRequest (m uri : String) : CFRequest :=
  { method := m, uri := uri, querystring := "", headers := [], origin := none }

/-- A minimal viewer-request event for witnesses. -/
def testEvent (m uri : String) : CFEvent :=
  { config := { eventType := "viewer-request" }
    request := testRequest m uri
    response := none }

/-- A response carrying one `cache-control` header value. -/
def ccResponse (cc : String) (body : Option String) : CFResponse :=
  { status := "200"
    statusDescription := none
    headers := some [("cache-control",
      .harr [{ key := some "Cache-Control", value := cc }])]
    bodyEncoding := none
    body := body }

/-- An event whose combined response is `r`. -/
def respEvent (uri : String) (r : CFResponse) : CFEvent :=
  { config := { eventType := "origin-response" }
    request := testRequest "GET" uri
    response := some r }

/-- The §8 example policy `{min: 60, max: 300, default: 100}`. -/
def examplePolicy : Behavior :=
  { minTTL := 60, maxTTL := 300, defaultTTL := 100
    allowedMethods := ["GET", "HEAD"], cachedMethods := ["GET", "HEAD"] }

/- ## C3 -/

/-- C3 counterexample: with `minTTL = 400 > maxTTL = 300` and a
response whose `max-age` is 1000, `saveToCache` stores TTL 300
(`expire = now + 300·1000` at `now = 0`): the max bound fires and the
`else if` never re-raises the result to `minTTL = 400`, refuting the
claim that a TTL below `minTTL` after max-clamping is raised to
`minTTL`. -/
theorem saveToCache_else_if_counterexample :
    saveToCache [] 0 (respEvent "/u" (ccResponse "max-age=1000" (some "B")))
        { examplePolicy with minTTL := 400 }
      = .ok [("/u", { expire := 300 * 1000, body := some "B" })] ∧
    clampTTL { examplePolicy with minTTL := 400 } 1000 = 300 ∧
    (300 : Int) < 400 ∧ (300 : Int) ≠ 400 := by
  refine ⟨?_, by decide, by decide, by decide⟩
  decide

/-- C3 amended: `saveToCache` stores `expire = now + clampTTL·1000`
where `clampTTL` applies the bounds mutually exclusively: a TTL above
`maxTTL` is stored as `maxTTL` (even when that is below `minTTL`),
and only a TTL not above `maxTTL` but below `minTTL` is raised to
`minTTL` (even when `minTTL > maxTTL`). -/
theorem saveToCache_clamp_order (c : Cache) (now : Int) (ev : CFEvent)
    (resp : CFResponse) (b : Behavior) (hresp : ev.response = some resp) :
    saveToCache c now ev b
      = .ok (setCacheKey c ev.request.uri
          { expire := now + clampTTL b (computeTTL resp.headers b) * 1000
            body := resp.body }) ∧
    (∀ t : Int, t > b.maxTTL → clampTTL b t = b.maxTTL) ∧
    (∀ t : Int, t ≤ b.maxTTL → t < b.minTTL → clampTTL b t = b.minTTL) := by
  refine ⟨?_, ?_, ?_⟩
  · simp [saveToCache, hresp]
  · intro t ht
    simp [clampTTL, ht]
  · intro t ht1 ht2
    simp [clampTTL, ht2, not_lt.mpr ht1]

/-- Witness for `saveToCache_clamp_order` at a concrete store. -/
theorem saveToCache_clamp_order_witness :
    saveToCache [] 0 (respEvent "/u" (ccResponse "max-age=10" (some "B")))
        examplePolicy
      = .ok (setCacheKey [] "/u"
          { expire := 0 + clampTTL examplePolicy
              (computeTTL (ccResponse "max-age=10" (some "B")).headers
                examplePolicy) * 1000
            body := some "B" }) ∧
    clampTTL examplePolicy 1000 = examplePolicy.maxTTL ∧
    clampTTL examplePolicy 10 = examplePolicy.minTTL := by
  have h := saveToCache_clamp_order []
    0 (respEvent "/u" (ccResponse "max-age=10" (some "B")))
    (ccResponse "max-age=10" (some "B")) examplePolicy rfl
  exact ⟨h.1, h.2.1 1000 (by decide), h.2.2 10 (by decide) (by decide)⟩

/- ## C4 -/

/-- C4 counterexample: a response carrying `cache-control: max-age=0`
has TTL-before-clamping `defaultTTL = 100`, not the max-age value `0` —
`ttl = parsed?.['max-age'] || ttl` treats a zero max-age as falsy and
falls back to the default, refuting the claim that the TTL before
clamping always equals the max-age value when the directive is
present. -/
theorem computeTTL_max_age_zero_counterexample :
    computeTTL (ccResponse "max-age=0" (some "B")).headers examplePolicy = 100 ∧
    parseCacheControlMaxAge "max-age=0" = some 0 ∧
    (100 : Int) ≠ 0 := by
  refine ⟨by decide, by decide, by decide⟩

/-- C4 amended: in `saveToCache`, the TTL before clamping equals the
`max-age` value when the (first value of the) `cache-control` header
parses to a *nonzero* max-age — a zero max-age is falsy in
`parsed?.['max-age'] || ttl` and falls back to `policy.defaultTTL` —
and equals `policy.defaultTTL` when there is no `cache-control` header;
with policy `{min: 60, max: 300, default: 100}`, `max-age=1000` stores
TTL 300, `max-age=10` stores 60, and no `cache-control` stores 100. -/
theorem computeTTL_spec (b : Behavior) :
    (∀ (hs : Headers) (s : String) (v : Int),
      lookupHeader hs "cache-control" = some (.hstr s) →
      parseCacheControlMaxAge s = some v → v ≠ 0 →
      computeTTL (some hs) b = v) ∧
    (∀ (hs : Headers) (k : Option String) (s : String) (rest : List HeaderVal) (v : Int),
      lookupHeader hs "cache-control" = some (.harr ({ key := k, value := s } :: rest)) →
      parseCacheControlMaxAge s = some v → v ≠ 0 →
      computeTTL (some hs) b = v) ∧
    (∀ hs : Headers, lookupHeader hs "cache-control" = none →
      computeTTL (some hs) b = b.defaultTTL) ∧
    (computeTTL none b = b.defaultTTL) ∧
    (∀ (c : Cache) (now : Int) (bd : String),
      saveToCache c now (respEvent "/u" (ccResponse "max-age=1000" (some bd)))
          examplePolicy
        = .ok (setCacheKey c "/u" { expire := now + 300 * 1000, body := some bd }) ∧
      saveToCache c now (respEvent "/u" (ccResponse "max-age=10" (some bd)))
          examplePolicy
        = .ok (setCacheKey c "/u" { expire := now + 60 * 1000, body := some bd }) ∧
      saveToCache c now (respEvent "/u" (toResultResponse (some bd)))
          examplePolicy
        = .ok (setCacheKey c "/u" { expire := now + 100 * 1000, body := some bd })) := by
  have hempty : parseCacheControlMaxAge "" = none := by decide
  refine ⟨?_, ?_, ?_, ?_, ?_⟩
  · intro hs s v h hp hv0
    have hs' : ¬ s = "" := by
      intro h0
      rw [h0, hempty] at hp
      exact Option.noConfusion hp
    simp only [computeTTL, h, hs', if_false, hp]
    simp [hv0]
  · intro hs k s rest v h hp hv0
    have hs' : ¬ s = "" := by
      intro h0
      rw [h0, hempty] at hp
      exact Option.noConfusion hp
    simp only [computeTTL, h, List.head?, Option.map, Option.getD, hs', if_false, hp]
    simp [hv0]
  · intro hs h
    simp [computeTTL, h]
  · simp [computeTTL]
  · intro c now bd
    have key : ∀ (resp : CFResponse),
        saveToCache c now (respEvent "/u" resp) examplePolicy
          = .ok (setCacheKey c "/u"
              { expire := now + clampTTL examplePolicy
                  (computeTTL resp.headers examplePolicy) * 1000
                body := resp.body }) := by
      intro resp
      simp [saveToCache, respEvent, testRequest]
    refine ⟨?_, ?_, ?_⟩
    · rw [key]
      simp only [ccResponse]
      rw [show clampTTL examplePolicy (computeTTL
        (some [("cache-control",
          .harr [{ key := some "Cache-Control", value := "max-age=1000" }])])
        examplePolicy) = 300 from by decide]
    · rw [key]
      simp only [ccResponse]
      rw [show clampTTL examplePolicy (computeTTL
        (some [("cache-control",
          .harr [{ key := some "Cache-Control", value := "max-age=10" }])])
        examplePolicy) = 60 from by decide]
    · rw [key]
      simp only [toResultResponse]
      rw [show clampTTL examplePolicy (computeTTL none examplePolicy) = 100
        from by decide]

/-- Witness for `computeTTL_spec` at a concrete header set. -/
theorem computeTTL_spec_witness :
    computeTTL (some [("cache-control", .hstr "max-age=120")]) defaultBehavior = 120 ∧
    saveToCache [] 7 (respEvent "/u" (ccResponse "max-age=1000" (some "B")))
        examplePolicy
      = .ok (setCacheKey [] "/u" { expire := 7 + 300 * 1000, body := some "B" }) := by
  refine ⟨?_, ?_⟩
  · exact (computeTTL_spec defaultBehavior).1 _ "max-age=120" 120 (by decide)
      (by decide) (by decide)
  · exact ((computeTTL_spec examplePolicy).2.2.2.2 [] 7 "B").1

/- ## C5 -/

/-- The entry just stored under a key is the one `getKey` finds. -/
theorem getCacheKey_setCacheKey_self (c : Cache) (u : String) (e : CacheEntry) :
    getCacheKey (setCacheKey c u e) u = some e := by
  simp [getCacheKey, setCacheKey, List.lookup]

/-- C5: `retrieveFromCache` returns the stored body exactly when an
entry exists and the current time is strictly before its expiry; an
expired entry is deleted and the result is `none`, indistinguishable
from a true miss; and storing a response with `cache-control:
max-age=120` (default policy) then looking it up strictly within 120
seconds returns the identical body, while looking it up at or after the
expiry removes the entry and reports absent. -/
theorem retrieveFromCache_spec :
    (∀ (c : Cache) (now : Int) (ev : CFEvent) (e : CacheEntry),
      getCacheKey c ev.request.uri = some e → now < e.expire →
      retrieveFromCache c now ev = (some e.body, c)) ∧
    (∀ (c : Cache) (now : Int) (ev : CFEvent) (b : Option String),
      (retrieveFromCache c now ev).1 = some b →
      ∃ e, getCacheKey c ev.request.uri = some e ∧ now < e.expire ∧ b = e.body) ∧
    (∀ (c : Cache) (now : Int) (ev : CFEvent) (e : CacheEntry),
      getCacheKey c ev.request.uri = some e → e.expire ≤ now →
      retrieveFromCache c now ev = (none, removeCacheKey c ev.request.uri)) ∧
    (∀ (c : Cache) (now : Int) (ev : CFEvent),
      getCacheKey c ev.request.uri = none →
      retrieveFromCache c now ev = (none, c)) ∧
    (∀ (c cache' : Cache) (now t : Int) (ev : CFEvent) (bd : Option String),
      ev.response = some (ccResponse "max-age=120" bd) →
      saveToCache c now ev defaultBehavior = .ok cache' →
      (t < now + 120 * 1000 →
        retrieveFromCache cache' t ev = (some bd, cache')) ∧
      (now + 120 * 1000 ≤ t →
        retrieveFromCache cache' t ev
          = (none, removeCacheKey cache' ev.request.uri))) := by
  have hhit : ∀ (c : Cache) (now : Int) (ev : CFEvent) (e : CacheEntry),
      getCacheKey c ev.request.uri = some e → now < e.expire →
      retrieveFromCache c now ev = (some e.body, c) := by
    intro c now ev e h hlt
    simp [retrieveFromCache, h, hlt]
  have hexp : ∀ (c : Cache) (now : Int) (ev : CFEvent) (e : CacheEntry),
      getCacheKey c ev.request.uri = some e → e.expire ≤ now →
      retrieveFromCache c now ev = (none, removeCacheKey c ev.request.uri) := by
    intro c now ev e h hle
    simp [retrieveFromCache, h, not_lt.mpr hle]
  refine ⟨hhit, ?_, hexp, ?_, ?_⟩
  · intro c now ev b h
    cases hk : getCacheKey c ev.request.uri with
    | none => simp [retrieveFromCache, hk] at h
    | some e =>
      by_cases hlt : now < e.expire
      · have hb : b = e.body := by
          simp [retrieveFromCache, hk, hlt] at h
          exact h.symm
        exact ⟨e, rfl, hlt, hb⟩
      · simp [retrieveFromCache, hk, hlt] at h
  · intro c now ev h
    simp [retrieveFromCache, h]
  · intro c cache' now t ev bd hresp hsave
    have h120 : clampTTL defaultBehavior (computeTTL
        (some [("cache-control",
          HVal.harr [{ key := some "Cache-Control", value := "max-age=120" }])])
        defaultBehavior) = 120 := by decide
    have hsv : saveToCache c now ev defaultBehavior
        = .ok (setCacheKey c ev.request.uri
            { expire := now + 120 * 1000, body := bd }) := by
      simp [saveToCache, hresp, ccResponse, h120]
    rw [hsv] at hsave
    have hc' := Except.ok.inj hsave
    subst hc'
    constructor
    · intro ht
      exact hhit _ _ _ _ (getCacheKey_setCacheKey_self c ev.request.uri _) ht
    · intro ht
      exact hexp _ _ _ _ (getCacheKey_setCacheKey_self c ev.request.uri _) ht

/-- Witness for `retrieveFromCache_spec` on a one-entry store. -/
theorem retrieveFromCache_spec_witness :
    retrieveFromCache [("/u", { expire := 5000, body := some "B" })] 0
        (testEvent "GET" "/u")
      = (some (some "B"), [("/u", { expire := 5000, body := some "B" })]) :=
  retrieveFromCache_spec.1 _ _ _ { expire := 5000, body := some "B" }
    (by decide) (by decide)

/- ## C8 -/

/-- The `'*'` pattern compiles to `^.*$`, which accepts every path. -/
theorem matchGlob_star (s : List Char) : matchGlob ['*'] s = true := by
  have h : ∀ t : List Char, [] ∈ t.tails := by
    intro t
    exact (List.mem_tails [] t).mpr List.nil_suffix
  have hstar : matchGlob ['*'] s = s.tails.any (fun t => matchGlob [] t) := by
    simp [matchGlob]
  rw [hstar, List.any_eq_true]
  exact ⟨[], h s, by simp [matchGlob]⟩

/-- C8: the router tests each behavior's glob pattern against the
request URL's pathname in configuration order and returns the first
match; when no pattern matches it falls back to the `'*'` entry when
present (necessarily absent in that case, since `'*'` accepts every
path) and otherwise reports no match; in particular `/images/foo.png`
against configured patterns `/images/*`, `*` selects the `/images/*`
hook set. -/
theorem matchBehavior_spec :
    (∀ (α : Type) (pre post : List (String × α)) (p : String × α) (u : String),
      u ≠ "" →
      (∀ q ∈ pre, globTest q.1 (urlPathname u) = false) →
      globTest p.1 (urlPathname u) = true →
      matchBehavior (pre ++ p :: post) (some u) = some p.2) ∧
    (∀ (α : Type) (bs : List (String × α)) (u : String),
      u ≠ "" →
      List.find? (fun q => globTest q.1 (urlPathname u)) bs = none →
      matchBehavior bs (some u)
        = Option.map Prod.snd (List.find? (fun q => q.1 = "*") bs)) ∧
    (∀ (α : Type) (bs : List (String × α)) (u : String),
      u ≠ "" →
      (∀ q ∈ bs, globTest q.1 (urlPathname u) = false) →
      matchBehavior bs (some u) = none) ∧
    (∀ α : Type, ∀ a b : α,
      matchBehavior [("/images/*", a), ("*", b)] (some "/images/foo.png")
        = some a) ∧
    (∀ (α : Type) (bs : List (String × α)), matchBehavior bs none = none) := by
  refine ⟨?_, ?_, ?_, ?_, ?_⟩
  · intro α pre post p u hu hpre hp
    have hfind : List.find? (fun q => globTest q.1 (urlPathname u)) (pre ++ p :: post)
        = some p := by
      rw [List.find?_append]
      rw [List.find?_eq_none.mpr (by intro q hq; simp [hpre q hq])]
      simp [List.find?_cons, hp]
    simp [matchBehavior, hu, hfind]
  · intro α bs u hu hfind
    simp only [matchBehavior, hu, if_false, hfind]
  · intro α bs u hu hall
    have hfind : List.find? (fun q => globTest q.1 (urlPathname u)) bs = none :=
      List.find?_eq_none.mpr (by intro q hq; simp [hall q hq])
    have hstar : List.find? (fun q : String × α => q.1 = "*") bs = none := by
      cases hw : List.find? (fun q : String × α => q.1 = "*") bs with
      | none => rfl
      | some w =>
        have hmem := List.mem_of_find?_eq_some hw
        have hkey : w.1 = "*" := by
          have := List.find?_some hw
          simpa using this
        have : globTest w.1 (urlPathname u) = false := hall w hmem
        rw [hkey] at this
        have htrue : globTest "*" (urlPathname u) = true := by
          simpa [globTest] using matchGlob_star (urlPathname u).data
        rw [htrue] at this
        exact absurd this (by simp)
    simp [matchBehavior, hu, hfind, hstar]
  · intro α a b
    rfl
  · intro α bs
    rfl

/-- Witness for `matchBehavior_spec` on a concrete behavior list. -/
theorem matchBehavior_spec_witness :
    matchBehavior [("/api/*", (0 : Nat)), ("/images/*", 1), ("*", 2)]
        (some "/images/x.png") = some 1 :=
  matchBehavior_spec.1 Nat [("/api/*", 0)] [("*", 2)] ("/images/*", 1)
    "/images/x.png" (by decide) (by decide) (by decide)

/- ## C9 -/

/-- C9: for a file-kind origin, a URI whose path component does not
resolve to an existing regular file under the base directory makes
`retrieve` *return* (not throw) a 404 response whose JSON body's
`message` mentions the resolved path; when the file exists, `retrieve`
returns its contents with status 200. -/
theorem originRetrieve_file_spec (fs : Fs)
    (httpFetch : CFRequest → Except JsError String) (base : String)
    (ev : CFEvent) :
    (fs (pathJoin base (urlPathname ev.request.uri)) = none →
      originRetrieveModel fs httpFetch { otype := .file, baseUrl := base } ev
        = { status := toString (404 : Int)
            statusDescription :=
              some (pathJoin base (urlPathname ev.request.uri) ++ " does not exist.")
            headers := some jsonContentType
            bodyEncoding := some "text"
            body := some (jsonCodeMessage 404
              (pathJoin base (urlPathname ev.request.uri) ++ " does not exist.")) }) ∧
    (fs (pathJoin base (urlPathname ev.request.uri)) = some .nonfile →
      originRetrieveModel fs httpFetch { otype := .file, baseUrl := base } ev
        = { status := toString (404 : Int)
            statusDescription :=
              some (pathJoin base (urlPathname ev.request.uri) ++ " is not a file.")
            headers := some jsonContentType
            bodyEncoding := some "text"
            body := some (jsonCodeMessage 404
              (pathJoin base (urlPathname ev.request.uri) ++ " is not a file.")) }) ∧
    (∀ contents : String,
      fs (pathJoin base (urlPathname ev.request.uri)) = some (.file contents) →
      originRetrieveModel fs httpFetch { otype := .file, baseUrl := base } ev
        = { status := "200"
            statusDescription := some ""
            headers := some jsonContentType
            bodyEncoding := some "text"
            body := some contents }) := by
  refine ⟨?_, ?_, ?_⟩
  · intro h
    simp [originRetrieveModel, getResource, getFileResource, h,
      errStatusOf, errMessageOf]
  · intro h
    simp [originRetrieveModel, getResource, getFileResource, h,
      errStatusOf, errMessageOf]
  · intro contents h
    simp [originRetrieveModel, getResource, getFileResource, h]

/-- Witness for `originRetrieve_file_spec` on a two-node filesystem. -/
theorem originRetrieve_file_spec_witness :
    originRetrieveModel
        (fun p => if p = "/base/a.txt" then some (.file "hello") else none)
        (fun _ => .error (.other "no network")) { otype := .file, baseUrl := "/base" }
        (testEvent "GET" "/missing.txt")
      = { status := toString (404 : Int)
          statusDescription := some ("/base/missing.txt does not exist.")
          headers := some jsonContentType
          bodyEncoding := some "text"
          body := some (jsonCodeMessage 404 "/base/missing.txt does not exist.") } ∧
    originRetrieveModel
        (fun p => if p = "/base/a.txt" then some (.file "hello") else none)
        (fun _ => .error (.other "no network")) { otype := .file, baseUrl := "/base" }
        (testEvent "GET" "/a.txt")
      = { status := "200"
          statusDescription := some ""
          headers := some jsonContentType
          bodyEncoding := some "text"
          body := some "hello" } := by
  constructor
  · have h := (originRetrieve_file_spec
      (fun p => if p = "/base/a.txt" then some (.file "hello") else none)
      (fun _ => .error (.other "no network")) "/base"
      (testEvent "GET" "/missing.txt")).1 (by decide)
    rw [h]
    rw [show pathJoin "/base" (urlPathname (testEvent "GET" "/missing.txt").request.uri)
      = "/base/missing.txt" from by decide]
    decide
  · have h := (originRetrieve_file_spec
      (fun p => if p = "/base/a.txt" then some (.file "hello") else none)
      (fun _ => .error (.other "no network")) "/base"
      (testEvent "GET" "/a.txt")).2.2 "hello" (by decide)
    exact h

/- ## Lifecycle fixtures and helper notions -/

/-- The event the viewer-request hook receives: the shared event after
`origin.init` with the stage tag set to `viewer-request`. -/
def vreqEvent (c : LCtx) (st : LState) : CFEvent :=
  (setEventType (initState c st) "viewer-request").event

/-- The event the origin-request hook receives on the no-short-circuit,
cache-miss path: the shared event with the stage tag `origin-request`. -/
def oreqEvent (c : LCtx) (st : LState) : CFEvent :=
  (setEventType (initState c st) "origin-request").event

/-- Stage hooks are user handler modules; the `NoResult` control signal
is internal to the engine (`src/errors`), so well-behaved hooks never
reject with it. -/
def HooksAvoidNoResult (f : FnSet) : Prop :=
  (∀ ev, f.viewerRequest ev ≠ .error .noResult) ∧
  (∀ ev, f.originRequest ev ≠ .error .noResult) ∧
  (∀ ev, f.originResponse ev ≠ .error .noResult) ∧
  (∀ ev, f.viewerResponse ev ≠ .error .noResult)

/-- An all-identity hook set over the default behavior. -/
def testFnSet : FnSet :=
  { viewerRequest := identityRequestHandler
    originRequest := identityRequestHandler
    originResponse := identityResponseHandler
    viewerResponse := identityResponseHandler
    behavior := defaultBehavior }

/-- A plain lifecycle context for witnesses. -/
def testCtx : LCtx :=
  { fnSet := testFnSet
    options := { disableCache := false }
    originRetrieve := fun _ => toResultResponse (some "origin-body")
    originDescr := "origin-1"
    now := 0 }

/-- A fresh lifecycle state for witnesses. -/
def testState (m uri : String) : LState :=
  { event := testEvent m uri, cache := [], trace := [] }

/- ## C7 -/

/-- The not-allowed exit of `run`, shared by several proofs. -/
theorem run_not_allowed_eq (c : LCtx) (st : LState)
    (h : c.fnSet.behavior.allowedMethods.contains st.event.request.method = false) :
    run c st = (.error (MethodNotAllowedError "Cloudfront method not allowed"),
      initState c st) := by
  have h' : st.event.request.method ∉ c.fnSet.behavior.allowedMethods := by
    simpa using h
  simp [run, initState, h']

/-- C7: a request whose method is not in the hook set's
`allowedMethods` makes `run` fail with the 405 `MethodNotAllowedError`
while the trace and the cache are untouched — no stage hook ran and
neither the cache nor the origin was consulted. -/
theorem run_method_not_allowed (c : LCtx) (st : LState)
    (h : c.fnSet.behavior.allowedMethods.contains st.event.request.method = false) :
    run c st = (.error (MethodNotAllowedError "Cloudfront method not allowed"),
      initState c st) ∧
    (initState c st).trace = st.trace ∧
    (initState c st).cache = st.cache :=
  ⟨run_not_allowed_eq c st h, rfl, rfl⟩

/-- Witness for `run_method_not_allowed`: a `POST` against the default
`{GET, HEAD}` allow-list. -/
theorem run_method_not_allowed_witness :
    run testCtx (testState "POST" "/u")
      = (.error (MethodNotAllowedError "Cloudfront method not allowed"),
        initState testCtx (testState "POST" "/u")) :=
  (run_method_not_allowed testCtx (testState "POST" "/u") (by decide)).1

/- ## Stage-composition lemmas for `run` -/

/-- If the viewer-request stage does not end in the `NoResult` control
signal, `run` returns its outcome unchanged. -/
theorem run_eq_stage1 (c : LCtx) (st : LState)
    (hm : c.fnSet.behavior.allowedMethods.contains st.event.request.method = true)
    (h : (onViewerRequest c (initState c st)).1 ≠ .error .noResult) :
    run c st = onViewerRequest c (initState c st) := by
  have hmethod : (initState c st).event.request.method = st.event.request.method := rfl
  rcases hov : onViewerRequest c (initState c st) with ⟨out, st₂⟩
  rw [hov] at h
  cases out with
  | ok v =>
    simp only [run, hmethod, hm, not_true_eq_false, if_false, hov]
  | error e =>
    have he : ¬ e = JsError.noResult := by
      intro hcon
      exact h (by rw [hcon])
    simp only [run, hmethod, hm, not_true_eq_false, if_false, hov, he, ite_false]

/-- If the viewer-request stage yields `NoResult` and the cache stage
does not, `run` returns the cache stage's outcome unchanged. -/
theorem run_eq_stage2 (c : LCtx) (st : LState) (st₂ : LState)
    (hm : c.fnSet.behavior.allowedMethods.contains st.event.request.method = true)
    (h1 : onViewerRequest c (initState c st) = (.error .noResult, st₂))
    (h2 : (onCache c st₂).1 ≠ .error .noResult) :
    run c st = onCache c st₂ := by
  have hmethod : (initState c st).event.request.method = st.event.request.method := rfl
  rcases hoc : onCache c st₂ with ⟨out, st₃⟩
  rw [hoc] at h2
  cases out with
  | ok v =>
    simp only [run, hmethod, hm, not_true_eq_false, if_false, h1, ite_true, hoc]
  | error e =>
    have he : ¬ e = JsError.noResult := by
      intro hcon
      exact h2 (by rw [hcon])
    simp only [run, hmethod, hm, not_true_eq_false, if_false, h1, ite_true, hoc, he,
      ite_false]

/-- If both guarded stages yield `NoResult`, `run` continues with the
origin tail. -/
theorem run_eq_stage3 (c : LCtx) (st : LState) (st₂ st₃ : LState)
    (hm : c.fnSet.behavior.allowedMethods.contains st.event.request.method = true)
    (h1 : onViewerRequest c (initState c st) = (.error .noResult, st₂))
    (h2 : onCache c st₂ = (.error .noResult, st₃)) :
    run c st = afterCache c st₃ := by
  have hmethod : (initState c st).event.request.method = st.event.request.method := rfl
  simp only [run, hmethod, hm, not_true_eq_false, if_false, h1, ite_true, h2]

/-- The viewer-request stage on a hook result classified as a response
shape: it immediately runs the viewer-response stage on it. -/
theorem onViewerRequest_short (c : LCtx) (st₁ : LState) (r : CFResponse)
    (hvr : c.fnSet.viewerRequest (setEventType st₁ "viewer-request").event
      = .ok (.response r)) :
    onViewerRequest c st₁
      = (c.fnSet.viewerResponse (combineResult
          (setEventType (logT (setEventType st₁ "viewer-request") .viewerRequestHook)
            "viewer-response").event (some r)),
        logT (setEventType (logT (setEventType st₁ "viewer-request") .viewerRequestHook)
          "viewer-response") .viewerResponseHook) := by
  simp [onViewerRequest, hvr, isResponseResult, asResponse, onViewerResponse]

/-- The viewer-request stage on a hook result that is not a response
shape: it throws the `NoResult` control signal. -/
theorem onViewerRequest_noShort (c : LCtx) (st₁ : LState) (rr : ReqResult)
    (hvr : c.fnSet.viewerRequest (setEventType st₁ "viewer-request").event = .ok rr)
    (hnr : isResponseResult rr = false) :
    onViewerRequest c st₁
      = (.error .noResult, logT (setEventType st₁ "viewer-request") .viewerRequestHook) := by
  simp [onViewerRequest, hvr, hnr]

/- ## C1 -/

/-- C1: with an allowed method, when the edge-request (viewer-request)
hook returns a response-shaped result `r`, `run`'s outcome is exactly
the edge-response (viewer-response) hook applied to the event carrying
`r` as its response, the cache is untouched, and the trace shows that
neither the cache, nor the origin resolver, nor the origin-request hook
was invoked (only the two edge hooks ran).  The edge-response hook is
assumed not to reject with the engine-internal `NoResult` signal. -/
theorem run_viewer_request_short_circuit (c : LCtx) (st : LState) (r : CFResponse)
    (hm : c.fnSet.behavior.allowedMethods.contains st.event.request.method = true)
    (hvr : c.fnSet.viewerRequest (vreqEvent c st) = .ok (.response r))
    (hnr : ∀ ev, c.fnSet.viewerResponse ev ≠ .error .noResult) :
    ∃ ev2 st',
      run c st = (c.fnSet.viewerResponse ev2, st') ∧
      ev2.response = some r ∧
      ev2.request = (initState c st).event.request ∧
      st'.cache = st.cache ∧
      st'.trace = st.trace ++ [.viewerRequestHook, .viewerResponseHook] := by
  have hov := onViewerRequest_short c (initState c st) r hvr
  have hrun : run c st = onViewerRequest c (initState c st) := by
    apply run_eq_stage1 c st hm
    rw [hov]
    exact hnr _
  rw [hov] at hrun
  refine ⟨_, _, hrun, rfl, rfl, rfl, ?_⟩
  simp [logT, setEventType, initState]

/-- A hook set whose viewer-request hook short-circuits with a fixed
response. -/
def scFnSet (r : CFResponse) : FnSet :=
  { testFnSet with viewerRequest := fun _ => .ok (.response r) }

/-- Witness for `run_viewer_request_short_circuit` with a constant
short-circuiting edge-request hook and the identity edge-response
hook. -/
theorem run_viewer_request_short_circuit_witness :
    ∃ ev2 st',
      run { testCtx with fnSet := scFnSet (toResultResponse (some "sc")) }
          (testState "GET" "/u")
        = ((scFnSet (toResultResponse (some "sc"))).viewerResponse ev2, st') ∧
      ev2.response = some (toResultResponse (some "sc")) ∧
      ev2.request = (initState { testCtx with fnSet := scFnSet (toResultResponse (some "sc")) }
        (testState "GET" "/u")).event.request ∧
      st'.cache = (testState "GET" "/u").cache ∧
      st'.trace = (testState "GET" "/u").trace
        ++ [.viewerRequestHook, .viewerResponseHook] :=
  run_viewer_request_short_circuit _ _ (toResultResponse (some "sc"))
    (by decide) rfl
    (by
      intro ev
      simp [scFnSet, testFnSet, identityResponseHandler])

/- ## C2: error-origin lemmas -/

/-- Errors of the viewer-request stage: the internal control signal or
an error of one of the two edge hooks, unchanged. -/
theorem onViewerRequest_error_cases (c : LCtx) (st : LState) (e : JsError)
    (st' : LState) (h : onViewerRequest c st = (.error e, st')) :
    e = .noResult ∨ (∃ ev, c.fnSet.viewerRequest ev = .error e) ∨
      (∃ ev, c.fnSet.viewerResponse ev = .error e) := by
  simp only [onViewerRequest] at h
  cases hv : c.fnSet.viewerRequest (setEventType st "viewer-request").event with
  | error e' =>
    rw [hv] at h
    have he : e' = e := Except.error.inj ((Prod.mk.injEq _ _ _ _).mp h).1
    exact Or.inr (Or.inl ⟨_, he ▸ hv⟩)
  | ok rr =>
    rw [hv] at h
    by_cases hr : isResponseResult rr
    · simp only [hr, if_true, onViewerResponse] at h
      have := ((Prod.mk.injEq _ _ _ _).mp h).1
      exact Or.inr (Or.inr ⟨_, this⟩)
    · have h' : (if isResponseResult rr = true then
          onViewerResponse c (asResponse rr)
            (logT (setEventType st "viewer-request") TraceEv.viewerRequestHook)
        else (Except.error JsError.noResult,
          logT (setEventType st "viewer-request") TraceEv.viewerRequestHook))
          = (Except.error e, st') := h
      rw [if_neg (by simp [hr])] at h'
      exact Or.inl (Except.error.inj ((Prod.mk.injEq _ _ _ _).mp h').1).symm

/-- Errors of the cache stage: the control signal or an edge-response
hook error, unchanged. -/
theorem onCache_error_cases (c : LCtx) (st : LState) (e : JsError)
    (st' : LState) (h : onCache c st = (.error e, st')) :
    e = .noResult ∨ ∃ ev, c.fnSet.viewerResponse ev = .error e := by
  unfold onCache at h
  simp only [] at h
  split at h
  · exact Or.inl (Except.error.inj ((Prod.mk.injEq _ _ _ _).mp h).1).symm
  · split at h
    · exact Or.inl (Except.error.inj ((Prod.mk.injEq _ _ _ _).mp h).1).symm
    · split at h
      · exact Or.inl (Except.error.inj ((Prod.mk.injEq _ _ _ _).mp h).1).symm
      · simp only [onViewerResponse] at h
        exact Or.inr ⟨_, ((Prod.mk.injEq _ _ _ _).mp h).1⟩

/-- Errors of the origin-request stage: an origin-request hook error or
an origin-response hook error, unchanged (the origin fetch itself never
rejects). -/
theorem onOriginRequest_error_cases (c : LCtx) (st : LState) (e : JsError)
    (st' : LState) (h : onOriginRequest c st = (.error e, st')) :
    (∃ ev, c.fnSet.originRequest ev = .error e) ∨
      (∃ ev, c.fnSet.originResponse ev = .error e) := by
  unfold onOriginRequest at h
  simp only [] at h
  split at h
  next e' heq =>
    have he : e' = e := Except.error.inj ((Prod.mk.injEq _ _ _ _).mp h).1
    exact Or.inl ⟨_, he ▸ heq⟩
  next rr heq =>
    split at h
    · exact absurd ((Prod.mk.injEq _ _ _ _).mp h).1 (by simp)
    · simp only [onOriginResponse] at h
      exact Or.inr ⟨_, ((Prod.mk.injEq _ _ _ _).mp h).1⟩

/-- The only rejection of `saveToCache` is the destructuring
`TypeError` on a missing response. -/
theorem saveToCache_error_eq (cc : Cache) (now : Int) (ev : CFEvent)
    (b : Behavior) (e : JsError) (h : saveToCache cc now ev b = .error e) :
    e = .other "TypeError: cannot destructure undefined" := by
  unfold saveToCache at h
  split at h
  · exact (Except.error.inj h).symm
  · exact absurd h (by simp)

/-- Errors of the origin tail of `run`: an origin-request hook error,
an origin-response hook error, an edge-response hook error, or the
cache-save `TypeError`, each unchanged. -/
theorem afterCache_error_cases (c : LCtx) (st : LState) (e : JsError)
    (st' : LState) (h : afterCache c st = (.error e, st')) :
    (∃ ev, c.fnSet.originRequest ev = .error e) ∨
      (∃ ev, c.fnSet.originResponse ev = .error e) ∨
      (∃ ev, c.fnSet.viewerResponse ev = .error e) ∨
      e = .other "TypeError: cannot destructure undefined" := by
  have hsave : ∀ (result : Option CFResponse) (st₁ st₂ : LState) (e₂ : JsError),
      saveStage c result st₁ = (.error e₂, st₂) →
      e₂ = .other "TypeError: cannot destructure undefined" := by
    intro result st₁ st₂ e₂ hs
    unfold saveStage at hs
    simp only [] at hs
    split at hs
    · split at hs
      next e₃ heq₃ =>
        have he : e₃ = e₂ := Except.error.inj ((Prod.mk.injEq _ _ _ _).mp hs).1
        exact saveToCache_error_eq _ _ _ _ _ (he ▸ heq₃)
      next cache' heq₃ =>
        exact absurd ((Prod.mk.injEq _ _ _ _).mp hs).1 (by simp)
    · exact absurd ((Prod.mk.injEq _ _ _ _).mp hs).1 (by simp)
  have htail : ∀ (result : Option CFResponse) (st₂ : LState),
      viewerRespondAndTag c result st₂ = (.error e, st') →
      ∃ ev, c.fnSet.viewerResponse ev = .error e := by
    intro result st₂ ht
    unfold viewerRespondAndTag at ht
    split at ht
    next e₄ st₄ heq₄ =>
      have he : e₄ = e := Except.error.inj ((Prod.mk.injEq _ _ _ _).mp ht).1
      simp only [onViewerResponse] at heq₄
      exact ⟨_, he ▸ ((Prod.mk.injEq _ _ _ _).mp heq₄).1⟩
    next result2 st₄ heq₄ =>
      split at ht
      · exact absurd ((Prod.mk.injEq _ _ _ _).mp ht).1 (by simp)
      · exact absurd ((Prod.mk.injEq _ _ _ _).mp ht).1 (by simp)
  unfold afterCache at h
  split at h
  next e₁ st₁ heq =>
    have he : e₁ = e := Except.error.inj ((Prod.mk.injEq _ _ _ _).mp h).1
    rcases onOriginRequest_error_cases c st e st₁ (he ▸ heq) with h1 | h2
    · exact Or.inl h1
    · exact Or.inr (Or.inl h2)
  next result st₁ heq =>
    split at h
    next e₂ st₂ heq₂ =>
      have he : e₂ = e := Except.error.inj ((Prod.mk.injEq _ _ _ _).mp h).1
      exact Or.inr (Or.inr (Or.inr (hsave result st₁ st₂ e (he ▸ heq₂))))
    next u st₂ heq₂ =>
      exact Or.inr (Or.inr (Or.inl (htail result st₂ h)))

/- ## C2 -/

/-- C2: under hooks that never reject with the engine-internal
`NoResult` control signal, `run` never rejects with `NoResult`; and any
non-`NoResult` error produced by a stage — the viewer-request stage,
the cache stage, the origin tail, or the viewer-request hook itself —
propagates out of `run` unchanged. -/
theorem run_error_policy (c : LCtx) (st : LState)
    (hw : HooksAvoidNoResult c.fnSet) :
    (∀ e st', run c st = (.error e, st') → e ≠ .noResult) ∧
    (∀ e st₂,
      c.fnSet.behavior.allowedMethods.contains st.event.request.method = true →
      onViewerRequest c (initState c st) = (.error e, st₂) → e ≠ .noResult →
      run c st = (.error e, st₂)) ∧
    (∀ e st₂ st₃,
      c.fnSet.behavior.allowedMethods.contains st.event.request.method = true →
      onViewerRequest c (initState c st) = (.error .noResult, st₂) →
      onCache c st₂ = (.error e, st₃) → e ≠ .noResult →
      run c st = (.error e, st₃)) ∧
    (∀ e st₂ st₃ st₄,
      c.fnSet.behavior.allowedMethods.contains st.event.request.method = true →
      onViewerRequest c (initState c st) = (.error .noResult, st₂) →
      onCache c st₂ = (.error .noResult, st₃) →
      afterCache c st₃ = (.error e, st₄) →
      run c st = (.error e, st₄)) ∧
    (∀ e,
      c.fnSet.behavior.allowedMethods.contains st.event.request.method = true →
      c.fnSet.viewerRequest (vreqEvent c st) = .error e → e ≠ .noResult →
      run c st = (.error e,
        logT (setEventType (initState c st) "viewer-request") .viewerRequestHook)) := by
  have conj2 : ∀ e st₂,
      c.fnSet.behavior.allowedMethods.contains st.event.request.method = true →
      onViewerRequest c (initState c st) = (.error e, st₂) → e ≠ .noResult →
      run c st = (.error e, st₂) := by
    intro e st₂ hm h hne
    rw [run_eq_stage1 c st hm (by rw [h]; simp [hne])]
    exact h
  refine ⟨?_, conj2, ?_, ?_, ?_⟩
  · intro e st' h
    by_cases hm : c.fnSet.behavior.allowedMethods.contains st.event.request.method = true
    · rcases hov : onViewerRequest c (initState c st) with ⟨out, st₂⟩
      cases out with
      | ok v =>
        rw [run_eq_stage1 c st hm (by rw [hov]; simp), hov] at h
        exact absurd ((Prod.mk.injEq _ _ _ _).mp h).1 (by simp)
      | error e₁ =>
        by_cases h1 : e₁ = .noResult
        · subst h1
          rcases hoc : onCache c st₂ with ⟨out2, st₃⟩
          cases out2 with
          | ok v =>
            rw [run_eq_stage2 c st st₂ hm hov (by rw [hoc]; simp), hoc] at h
            exact absurd ((Prod.mk.injEq _ _ _ _).mp h).1 (by simp)
          | error e₂ =>
            by_cases h2 : e₂ = .noResult
            · subst h2
              rw [run_eq_stage3 c st st₂ st₃ hm hov hoc] at h
              rcases afterCache_error_cases c st₃ e st' h with hc1 | hc2 | hc3 | hc4
              · obtain ⟨ev, hev⟩ := hc1
                intro hcon
                exact hw.2.1 ev (hcon ▸ hev)
              · obtain ⟨ev, hev⟩ := hc2
                intro hcon
                exact hw.2.2.1 ev (hcon ▸ hev)
              · obtain ⟨ev, hev⟩ := hc3
                intro hcon
                exact hw.2.2.2 ev (hcon ▸ hev)
              · subst hc4
                simp
            · rw [run_eq_stage2 c st st₂ hm hov (by rw [hoc]; simp [h2]), hoc] at h
              have he : e₂ = e := Except.error.inj ((Prod.mk.injEq _ _ _ _).mp h).1
              exact he ▸ h2
        · rw [run_eq_stage1 c st hm (by rw [hov]; simp [h1]), hov] at h
          have he : e₁ = e := Except.error.inj ((Prod.mk.injEq _ _ _ _).mp h).1
          exact he ▸ h1
    · rw [run_not_allowed_eq c st (by simpa using hm)] at h
      have he := Except.error.inj ((Prod.mk.injEq _ _ _ _).mp h).1
      rw [← he]
      simp [MethodNotAllowedError]
  · intro e st₂ st₃ hm h1 h2 hne
    rw [run_eq_stage2 c st st₂ hm h1 (by rw [h2]; simp [hne])]
    exact h2
  · intro e st₂ st₃ st₄ hm h1 h2 h3
    rw [run_eq_stage3 c st st₂ st₃ hm h1 h2]
    exact h3
  · intro e hm hhook hne
    have hov : onViewerRequest c (initState c st)
        = (.error e, logT (setEventType (initState c st) "viewer-request")
            .viewerRequestHook) := by
      simp only [vreqEvent] at hhook
      simp [onViewerRequest, hhook]
    exact conj2 e _ hm hov hne

/-- A hook set whose viewer-request hook rejects with an ordinary
error. -/
def errFnSet : FnSet :=
  { testFnSet with viewerRequest := fun _ => .error (.other "boom") }

/-- Witness for `run_error_policy`: the erroring viewer-request hook's
error comes out of `run` unchanged. -/
theorem run_error_policy_witness :
    run { testCtx with fnSet := errFnSet } (testState "GET" "/u")
      = (.error (.other "boom"),
        logT (setEventType (initState { testCtx with fnSet := errFnSet }
          (testState "GET" "/u")) "viewer-request") .viewerRequestHook) :=
  (run_error_policy { testCtx with fnSet := errFnSet } (testState "GET" "/u")
    (by
      refine ⟨?_, ?_, ?_, ?_⟩ <;> intro ev <;>
        simp [errFnSet, testFnSet, identityRequestHandler,
          identityResponseHandler])).2.2.2.2
    (.other "boom") (by decide) rfl (by decide)

/- ## C6 -/

/-- The response the cache-hit path builds from a cached body before
running the edge-response stage: `toResultResponse` plus the
`X-Cache: Hit` tag. -/
def hitResponse (b : Option String) : CFResponse :=
  { toResultResponse b with
    headers := some (setHeader (Option.getD (toResultResponse b).headers [])
      "X-Cache" (.harr [{ key := some "X-Cache", value := "Hit" }])) }

/-- The cache stage on a hit with a truthy body: it tags the rebuilt
response with `X-Cache: Hit` and runs the viewer-response stage on
it. -/
theorem onCache_hit (c : LCtx) (st : LState) (b : Option String)
    (hcc : canCache c st = true)
    (hl : (retrieveFromCache st.cache c.now st.event).1 = some b)
    (hb1 : b ≠ none) (hb2 : b ≠ some "") :
    onCache c st
      = (c.fnSet.viewerResponse (combineResult
          (setEventType (logT { st with
              cache := (retrieveFromCache st.cache c.now st.event).2 } .cacheLookup)
            "viewer-response").event (some (hitResponse b))),
        logT (setEventType (logT { st with
            cache := (retrieveFromCache st.cache c.now st.event).2 } .cacheLookup)
          "viewer-response") .viewerResponseHook) := by
  have hb : ¬ (b = none ∨ b = some "") := by
    rintro (h | h)
    · exact hb1 h
    · exact hb2 h
  simp only [onCache, hcc, not_true_eq_false, if_false, hl, hb, onViewerResponse,
    hitResponse]

/-- Every successful `some` result of the origin tail went through the
`X-Cache: Miss` injection. -/
theorem afterCache_ok_some (c : LCtx) (st : LState) (r' : CFResponse)
    (st' : LState) (h : afterCache c st = (.ok (some r'), st')) :
    ∃ r₀, r' = setXCacheMiss r₀ := by
  unfold afterCache at h
  split at h
  · exact absurd ((Prod.mk.injEq _ _ _ _).mp h).1 (by simp)
  next result st₁ heq =>
    split at h
    · exact absurd ((Prod.mk.injEq _ _ _ _).mp h).1 (by simp)
    next u st₂ heq₂ =>
      unfold viewerRespondAndTag at h
      split at h
      · exact absurd ((Prod.mk.injEq _ _ _ _).mp h).1 (by simp)
      next result2 st₄ heq₄ =>
        split at h
        next r₀ =>
          have := Except.ok.inj ((Prod.mk.injEq _ _ _ _).mp h).1
          exact ⟨r₀, (Option.some.inj this).symm⟩
        · exact absurd (Except.ok.inj ((Prod.mk.injEq _ _ _ _).mp h).1) (by simp)

/-- The miss tag is present after `setXCacheMiss`. -/
theorem responseCarries_setXCacheMiss (r₀ : CFResponse) :
    responseCarries (setXCacheMiss r₀) "X-Cache" "Miss" = true := by
  simp [responseCarries, setXCacheMiss, setHeader, hvalHasKV]

/-- C6: on the cache-hit path `run`'s outcome is the edge-response hook
applied to the event whose response is the cached body tagged
`X-Cache: Hit`; and on the full pipeline (no viewer-request
short-circuit, cache stage missed), every successful response `run`
returns carries `X-Cache: Miss`. -/
theorem run_x_cache_marker (c : LCtx) (st : LState) :
    (∀ (st₂ : LState) (b : Option String),
      c.fnSet.behavior.allowedMethods.contains st.event.request.method = true →
      onViewerRequest c (initState c st) = (.error .noResult, st₂) →
      canCache c st₂ = true →
      (retrieveFromCache st₂.cache c.now st₂.event).1 = some b →
      b ≠ none → b ≠ some "" →
      (∀ ev, c.fnSet.viewerResponse ev ≠ .error .noResult) →
      ∃ ev2 st',
        run c st = (c.fnSet.viewerResponse ev2, st') ∧
        ev2.response = some (hitResponse b) ∧
        responseCarries (hitResponse b) "X-Cache" "Hit" = true) ∧
    (∀ (st₂ st₃ st' : LState) (r' : CFResponse),
      c.fnSet.behavior.allowedMethods.contains st.event.request.method = true →
      onViewerRequest c (initState c st) = (.error .noResult, st₂) →
      onCache c st₂ = (.error .noResult, st₃) →
      run c st = (.ok (some r'), st') →
      responseCarries r' "X-Cache" "Miss" = true) := by
  constructor
  · intro st₂ b hm h1 hcc hl hb1 hb2 hnr
    have hoc := onCache_hit c st₂ b hcc hl hb1 hb2
    have hrun : run c st = onCache c st₂ :=
      run_eq_stage2 c st st₂ hm h1 (by rw [hoc]; exact hnr _)
    rw [hoc] at hrun
    refine ⟨_, _, hrun, rfl, ?_⟩
    simp [responseCarries, hitResponse, toResultResponse, setHeader, hvalHasKV]
  · intro st₂ st₃ st' r' hm h1 h2 hrun
    rw [run_eq_stage3 c st st₂ st₃ hm h1 h2] at hrun
    obtain ⟨r₀, hr⟩ := afterCache_ok_some c st₃ r' st' hrun
    rw [hr]
    exact responseCarries_setXCacheMiss r₀

/-- A fresh state whose cache holds an unexpired entry for `/u`. -/
def hitState : LState :=
  { event := testEvent "GET" "/u"
    cache := [("/u", { expire := 5000, body := some "B" })]
    trace := [] }

/-- Witness for `run_x_cache_marker` on a concrete cache hit. -/
theorem run_x_cache_marker_witness :
    ∃ ev2 st',
      run testCtx hitState = (testCtx.fnSet.viewerResponse ev2, st') ∧
      ev2.response = some (hitResponse (some "B")) ∧
      responseCarries (hitResponse (some "B")) "X-Cache" "Hit" = true :=
  (run_x_cache_marker testCtx hitState).1
    (logT (setEventType (initState testCtx hitState) "viewer-request")
      .viewerRequestHook)
    (some "B") (by decide) rfl (by decide) (by decide) (by decide) (by decide)
    (by
      intro ev
      simp [testCtx, testFnSet, identityResponseHandler])

/- ## C10 -/

/-- The cache stage on a clean miss (no entry at all): the control
signal, with only the lookup recorded. -/
theorem onCache_miss (c : LCtx) (st : LState)
    (hcc : canCache c st = true)
    (hm : getCacheKey st.cache st.event.request.uri = none) :
    onCache c st = (.error .noResult, logT st .cacheLookup) := by
  simp [onCache, hcc, retrieveFromCache, hm]

/-- The origin-request stage when its hook short-circuits with a
response shape: the response is returned directly, no origin fetch and
no origin-response stage. -/
theorem onOriginRequest_short (c : LCtx) (st : LState) (r : CFResponse)
    (horr : c.fnSet.originRequest (setEventType st "origin-request").event
      = .ok (.response r)) :
    onOriginRequest c st
      = (.ok (some r),
        logT (setEventType st "origin-request") .originRequestHook) := by
  simp [onOriginRequest, horr, isResponseResult, asResponse]

/-- C10: when a request reaches the origin-request stage with caching
enabled (method in `cachedMethods`, cache not disabled, clean cache
miss, no viewer-request short-circuit) and the origin-request hook
short-circuits with a response shape `r`, that response is stored in
the cache store under the TTL policy even though the origin was never
fetched and the origin-response stage never ran (the trace records no
`originFetch` and no `originResponseHook`). -/
theorem run_origin_short_circuit_caches (c : LCtx) (st : LState)
    (rr : ReqResult) (r : CFResponse)
    (hm : c.fnSet.behavior.allowedMethods.contains st.event.request.method = true)
    (hvr : c.fnSet.viewerRequest (vreqEvent c st) = .ok rr)
    (hnsc : isResponseResult rr = false)
    (hdc : c.options.disableCache = false)
    (hcm : c.fnSet.behavior.cachedMethods.contains st.event.request.method = true)
    (hmiss : getCacheKey st.cache st.event.request.uri = none)
    (horr : c.fnSet.originRequest (oreqEvent c st) = .ok (.response r)) :
    ∃ res st',
      run c st = (res, st') ∧
      st'.cache = setCacheKey st.cache st.event.request.uri
        { expire := c.now + clampTTL c.fnSet.behavior
            (computeTTL r.headers c.fnSet.behavior) * 1000
          body := r.body } ∧
      st'.trace = st.trace ++ [.viewerRequestHook, .cacheLookup,
        .originRequestHook, .cacheSave, .viewerResponseHook] := by
  have h1 := onViewerRequest_noShort c (initState c st) rr hvr hnsc
  have hcc₂ : canCache c
      (logT (setEventType (initState c st) "viewer-request") .viewerRequestHook)
      = true := by
    have hcm' : st.event.request.method ∈ c.fnSet.behavior.cachedMethods := by
      simpa using hcm
    simp [canCache, hdc, logT, setEventType, initState, hcm']
  have h2 := onCache_miss c
    (logT (setEventType (initState c st) "viewer-request") .viewerRequestHook)
    hcc₂ hmiss
  have hrun := run_eq_stage3 c st _ _ hm h1 h2
  have h4 := onOriginRequest_short c
    (logT (logT (setEventType (initState c st) "viewer-request") .viewerRequestHook)
      .cacheLookup) r horr
  have hcc₄ : canCache c
      (logT (setEventType (logT (logT (setEventType (initState c st) "viewer-request")
        .viewerRequestHook) .cacheLookup) "origin-request") .originRequestHook)
      = true := by
    have hcm' : st.event.request.method ∈ c.fnSet.behavior.cachedMethods := by
      simpa using hcm
    simp [canCache, hdc, logT, setEventType, initState, hcm']
  have h5 : saveStage c (some r)
      (logT (setEventType (logT (logT (setEventType (initState c st) "viewer-request")
        .viewerRequestHook) .cacheLookup) "origin-request") .originRequestHook)
      = (.ok (),
        { logT (logT (setEventType (logT (logT (setEventType (initState c st)
              "viewer-request") .viewerRequestHook) .cacheLookup) "origin-request")
            .originRequestHook) .cacheSave with
          cache := setCacheKey st.cache st.event.request.uri
            { expire := c.now + clampTTL c.fnSet.behavior
                (computeTTL r.headers c.fnSet.behavior) * 1000
              body := r.body } }) := by
    have hcm' : st.event.request.method ∈ c.fnSet.behavior.cachedMethods := by
      simpa using hcm
    simp [saveStage, canCache, hdc, hcm', saveToCache, combineResult, logT,
      setEventType, initState]
  have hafter : afterCache c
      (logT (logT (setEventType (initState c st) "viewer-request") .viewerRequestHook)
        .cacheLookup)
      = viewerRespondAndTag c (some r)
        { logT (logT (setEventType (logT (logT (setEventType (initState c st)
              "viewer-request") .viewerRequestHook) .cacheLookup) "origin-request")
            .originRequestHook) .cacheSave with
          cache := setCacheKey st.cache st.event.request.uri
            { expire := c.now + clampTTL c.fnSet.behavior
                (computeTTL r.headers c.fnSet.behavior) * 1000
              body := r.body } } := by
    unfold afterCache
    rw [h4]
    simp only []
    rw [h5]
  rw [hafter] at hrun
  rcases hfin : viewerRespondAndTag c (some r)
      { logT (logT (setEventType (logT (logT (setEventType (initState c st)
            "viewer-request") .viewerRequestHook) .cacheLookup) "origin-request")
          .originRequestHook) .cacheSave with
        cache := setCacheKey st.cache st.event.request.uri
          { expire := c.now + clampTTL c.fnSet.behavior
              (computeTTL r.headers c.fnSet.behavior) * 1000
            body := r.body } } with ⟨res, stF⟩
  have hstF : stF.cache = setCacheKey st.cache st.event.request.uri
      { expire := c.now + clampTTL c.fnSet.behavior
          (computeTTL r.headers c.fnSet.behavior) * 1000
        body := r.body } ∧
      stF.trace = st.trace ++ [.viewerRequestHook, .cacheLookup,
        .originRequestHook, .cacheSave, .viewerResponseHook] := by
    unfold viewerRespondAndTag at hfin
    revert hfin
    split
    next e st₆ heq₆ =>
      intro hfin
      have hst := ((Prod.mk.injEq _ _ _ _).mp hfin).2
      simp only [onViewerResponse] at heq₆
      have hst₆ := ((Prod.mk.injEq _ _ _ _).mp heq₆).2
      rw [← hst, ← hst₆]
      constructor
      · simp [logT, setEventType, initState]
      · simp [logT, setEventType, initState]
    next result2 st₆ heq₆ =>
      intro hfin
      simp only [onViewerResponse] at heq₆
      have hst₆ := ((Prod.mk.injEq _ _ _ _).mp heq₆).2
      have hst : stF = st₆ := by
        revert hfin
        split
        · intro hfin
          exact ((Prod.mk.injEq _ _ _ _).mp hfin).2.symm
        · intro hfin
          exact ((Prod.mk.injEq _ _ _ _).mp hfin).2.symm
      rw [hst, ← hst₆]
      constructor
      · simp [logT, setEventType, initState]
      · simp [logT, setEventType, initState]
  exact ⟨res, stF, hrun.trans hfin, hstF.1, hstF.2⟩

/-- A context whose origin-request hook short-circuits with a cacheable
response. -/
def orCtx : LCtx :=
  { testCtx with fnSet := { testFnSet with
      originRequest := fun _ => .ok (.response (ccResponse "max-age=120" (some "OB"))) } }

/-- Witness for `run_origin_short_circuit_caches` on a concrete
short-circuiting origin-request hook. -/
theorem run_origin_short_circuit_caches_witness :
    ∃ res st',
      run orCtx (testState "GET" "/u") = (res, st') ∧
      st'.cache = setCacheKey (testState "GET" "/u").cache
        (testState "GET" "/u").event.request.uri
        { expire := orCtx.now + clampTTL orCtx.fnSet.behavior
            (computeTTL (ccResponse "max-age=120" (some "OB")).headers
              orCtx.fnSet.behavior) * 1000
          body := (ccResponse "max-age=120" (some "OB")).body } ∧
      st'.trace = (testState "GET" "/u").trace ++ [.viewerRequestHook, .cacheLookup,
        .originRequestHook, .cacheSave, .viewerResponseHook] :=
  run_origin_short_circuit_caches orCtx (testState "GET" "/u")
    (.request { method := "GET", uri := "/u", querystring := ""
                headers := [], origin := some "origin-1" })
    (ccResponse "max-age=120" (some "OB"))
    (by decide) rfl rfl rfl (by decide) rfl rfl
